import Mathlib

/-!
Verification of the backtester engine (Rust sources under src/src/engine/)
against its natural-language specification.

Shallow embedding conventions:
* `f64` values on which only real arithmetic is performed are embedded as `ℚ`
  (the source performs `+ - * /`, comparisons, `abs`, `max`; no claim under
  scrutiny depends on rounding).
* Where NaN / infinity semantics matter (the input-validation layer,
  `prepare_inputs.rs` and the checks at the top of `run_backtest` in `mod.rs`),
  `f64` is embedded as the four-variant type `FVal` with IEEE comparison
  semantics (every comparison involving NaN is false).
* Rust slices are embedded as `List`s; in-range indexing `a[i]` is embedded as
  `get0 a i` (`List.getD i 0`).  Rust panics on out-of-range indices; all
  theorems below carry the bounds under which the embedded `getD` coincides
  with the source's in-range read.
* Fallible code (`Result`, panics) is embedded as `Except` / `Option`.
-/

/-- Embedding of `f64` for the validation layer: a finite rational, the two
infinities, or NaN. -/
inductive FVal where
  | fin (q : ℚ)
  | inf
  | ninf
  | nan
deriving DecidableEq, Repr

/-- Rust `f64::is_nan`. -/
def FVal.isNan : FVal → Bool
  | .nan => true
  | _ => false

/-- IEEE `a > b` on `f64`: false whenever either side is NaN. -/
def fgt : FVal → FVal → Bool
  | .nan, _ => false
  | _, .nan => false
  | .inf, .inf => false
  | .inf, _ => true
  | .ninf, _ => false
  | .fin _, .inf => false
  | .fin _, .ninf => true
  | .fin a, .fin b => decide (b < a)

/-- IEEE `a < b` on `f64` (equivalently `b > a`). -/
def flt (a b : FVal) : Bool := fgt b a

/-- Default used to embed in-range `f64` slice reads (`List.getD`). -/
def getF (l : List FVal) (i : ℕ) : FVal := l.getD i (FVal.fin 0)

/-- In-range `f64` slice read for the `ℚ`-valued engine arrays. -/
def get0 (l : List ℚ) (i : ℕ) : ℚ := l.getD i 0

/-- Inner loop of `prepare_inputs` (prepare_inputs.rs): for each array, first
the length check, then the NaN check, in array order. -/
def prepInner (len : ℕ) : List (List FVal) → Except String Unit
  | [] => Except.ok ()
  | a :: rest =>
    if a.length ≠ len then Except.error ("All input arrays must have the same length")
    else if a.any FVal.isNan then Except.error ("Input contains NaN")
    else prepInner len rest

/-- `prepare_inputs` (prepare_inputs.rs): `len` is the length of the first
array; every array must have that length and contain no NaN.  Note the source
checks `is_nan()` only: infinities pass. -/
def prepare_inputs (arrays : List (List FVal)) : Except String ℕ :=
  let len := (arrays.headD []).length
  (prepInner len arrays).map (fun _ => len)

/-- The structured error kinds of spec §7. -/
inductive ErrKind where
  | lengthMismatch
  | nonFinitePrice
  | timestampsNotIncreasing
  | signalConflict
  | expirationInPast
deriving DecidableEq, Repr

/-- Maps the two `prepare_inputs` error messages onto spec §7 kinds. -/
def msgKind (m : String) : ErrKind :=
  if m = "Input contains NaN" then ErrKind.nonFinitePrice else ErrKind.lengthMismatch

/-- `ts.windows(2).all(|w| w[1] > w[0])` from run_backtest (mod.rs). -/
def tsStrictlyIncreasing (ts : List FVal) : Bool :=
  (List.range (ts.length - 1)).all (fun i => fgt (getF ts (i + 1)) (getF ts i))

/-- The validation sequence run_backtest (mod.rs) performs before any engine
stage, in source order: (a) strict timestamp increase, (b) signal mutual
exclusion over `0..ts.len()`, (c) `prepare_inputs` over `[ts,o,h,l,c]`
(per-array length-then-NaN), (d) the nine remaining length checks, (e) the
expiration sanity scan.  Errors are embedded at the kind level (the source
raises `PyValueError`s with distinct messages).  `Except` short-circuiting
embeds "validation failures are fatal; no partial results".  The signal loop
reads `long_sig[i]`/`short_sig[i]` for `i < ts.len()`; the source would panic
if those arrays were shorter — embedded as `getD false`, and every theorem
about bad-length scenarios keeps the signal arrays at full length.
`lenChecks` is steps (d)-(e): the nine `validate_length` calls in source
order, then the expiration sanity scan, on the validated core length `n`. -/
def lenChecks (ts : List FVal) (lng srt : List Bool)
    (ltp lsl stp ssl lsz ssz expt : List FVal) (n : ℕ) : Except ErrKind ℕ :=
  if lng.length ≠ n then Except.error ErrKind.lengthMismatch
  else if srt.length ≠ n then Except.error ErrKind.lengthMismatch
  else if ltp.length ≠ n then Except.error ErrKind.lengthMismatch
  else if lsl.length ≠ n then Except.error ErrKind.lengthMismatch
  else if stp.length ≠ n then Except.error ErrKind.lengthMismatch
  else if ssl.length ≠ n then Except.error ErrKind.lengthMismatch
  else if lsz.length ≠ n then Except.error ErrKind.lengthMismatch
  else if ssz.length ≠ n then Except.error ErrKind.lengthMismatch
  else if expt.length ≠ n then Except.error ErrKind.lengthMismatch
  else if (List.range n).any (fun i => flt (getF expt i) (getF ts i)) then
    Except.error ErrKind.expirationInPast
  else Except.ok n

def validate_run (ts o h l c : List FVal) (lng srt : List Bool)
    (ltp lsl stp ssl lsz ssz expt : List FVal) : Except ErrKind ℕ :=
  if tsStrictlyIncreasing ts = false then Except.error ErrKind.timestampsNotIncreasing
  else if (List.range ts.length).any (fun i => lng.getD i false && srt.getD i false) then
    Except.error ErrKind.signalConflict
  else
    match prepare_inputs [ts, o, h, l, c] with
    | Except.error m => Except.error (msgKind m)
    | Except.ok n => lenChecks ts lng srt ltp lsl stp ssl lsz ssz expt n

/-- `Position` (position.rs), with `f64` embedded as `ℚ`. -/
structure Position where
  position_id : ℚ
  position_type : String
  entry_index : ℕ
  entry_price : ℚ
  tp : ℚ
  sl : ℚ
  expiration_time : Option ℚ
  exit_index : Option ℕ
  exit_price : Option ℚ
  exit_condition : Option String
  position_size : ℚ
  fee_entry : ℚ
  fee_exit : ℚ
  slippage_entry : ℚ
  slippage_exit : ℚ
  absolute_return : Option ℚ
  real_return : Option ℚ
  pnl : Option ℚ
  is_closed : Bool
deriving DecidableEq, Repr

instance : Inhabited Position :=
  ⟨{ position_id := 0, position_type := "", entry_index := 0, entry_price := 0,
     tp := 0, sl := 0, expiration_time := none, exit_index := none,
     exit_price := none, exit_condition := none, position_size := 0,
     fee_entry := 0, fee_exit := 0, slippage_entry := 0, slippage_exit := 0,
     absolute_return := none, real_return := none, pnl := none, is_closed := false }⟩

/-- `entry_idx = if i + 1 < n { i + 1 } else { i }` (scan_entries.rs). -/
def entryIdx (n i : ℕ) : ℕ := if i + 1 < n then i + 1 else i

/-- The LONG position pushed for a signal on bar `i` (scan_entries.rs).
`expiration_time` is `expiration_times.get(entry_idx).copied()`: an `Option`
read at the fill bar. -/
def mkLong (ts o ltp lsl lsz expt : List ℚ) (entry_fee_rate slippage_rate : ℚ)
    (n i : ℕ) : Position :=
  let ei := entryIdx n i
  let entry_ts := get0 ts ei
  let raw := get0 o ei
  let entry_price := raw * (1 + slippage_rate)
  { position_id := entry_ts, position_type := "long", entry_index := ei,
    entry_price := entry_price, tp := get0 ltp i, sl := get0 lsl i,
    expiration_time := expt.get? ei, exit_index := none, exit_price := none,
    exit_condition := none, position_size := get0 lsz i,
    fee_entry := get0 lsz i * entry_price * entry_fee_rate, fee_exit := 0,
    slippage_entry := entry_price - raw, slippage_exit := 0,
    absolute_return := none, real_return := none, pnl := none, is_closed := false }

/-- The SHORT position pushed for a signal on bar `i` (scan_entries.rs). -/
def mkShort (ts o stp ssl ssz expt : List ℚ) (entry_fee_rate slippage_rate : ℚ)
    (n i : ℕ) : Position :=
  let ei := entryIdx n i
  let entry_ts := get0 ts ei
  let raw := get0 o ei
  let entry_price := raw * (1 - slippage_rate)
  { position_id := entry_ts, position_type := "short", entry_index := ei,
    entry_price := entry_price, tp := get0 stp i, sl := get0 ssl i,
    expiration_time := expt.get? ei, exit_index := none, exit_price := none,
    exit_condition := none, position_size := get0 ssz i,
    fee_entry := get0 ssz i * entry_price * entry_fee_rate, fee_exit := 0,
    slippage_entry := raw - entry_price, slippage_exit := 0,
    absolute_return := none, real_return := none, pnl := none, is_closed := false }

/-- The emission loop of `scan_entries` (scan_entries.rs): bars in ascending
order; on each bar the LONG push precedes the SHORT push. -/
def scanEmit (ts o : List ℚ) (lng srt : List Bool)
    (ltp lsl stp ssl lsz ssz expt : List ℚ) (entry_fee_rate slippage_rate : ℚ) :
    List Position :=
  let n := o.length
  (List.range n).flatMap (fun i =>
    (if lng.getD i false then [mkLong ts o ltp lsl lsz expt entry_fee_rate slippage_rate n i] else [])
      ++ (if srt.getD i false then [mkShort ts o stp ssl ssz expt entry_fee_rate slippage_rate n i] else []))

/-- `scan_entries` (scan_entries.rs).  The two panics (signal conflict; an
expiration read at the fill bar lying before the fill bar's timestamp) are
embedded as `Except.error`; on inputs passing both guards the emission list is
produced.  (In the full pipeline both guards are redundant with the stricter
checks `validate_run` performs first.) -/
def scan_entries (ts o : List ℚ) (lng srt : List Bool)
    (ltp lsl stp ssl lsz ssz expt : List ℚ) (entry_fee_rate slippage_rate : ℚ) :
    Except String (List Position) :=
  let n := o.length
  if (List.range n).any (fun i => lng.getD i false && srt.getD i false) then
    Except.error ("Both long and short signals true")
  else if (List.range n).any (fun i =>
      match expt.get? (entryIdx n i) with
      | some et => decide (et < get0 ts (entryIdx n i))
      | none => false) then
    Except.error ("Expiration time before entry time")
  else
    Except.ok (scanEmit ts o lng srt ltp lsl stp ssl lsz ssz expt entry_fee_rate slippage_rate)

/-- `hit_sl` (simulate_exits.rs): the source matches on the side string with a
catch-all `false` arm. -/
def hitSl (pos : Position) (high low : List ℚ) (j : ℕ) : Bool :=
  if pos.position_type = "long" then decide (get0 low j ≤ pos.sl)
  else if pos.position_type = "short" then decide (pos.sl ≤ get0 high j)
  else false

/-- `hit_tp` (simulate_exits.rs). -/
def hitTp (pos : Position) (high low : List ℚ) (j : ℕ) : Bool :=
  if pos.position_type = "long" then decide (pos.tp ≤ get0 high j)
  else if pos.position_type = "short" then decide (get0 low j ≤ pos.tp)
  else false

/-- `expired` (simulate_exits.rs): `expiration_time.map_or(false, |t| ts[j] >= t)`. -/
def expired (pos : Position) (ts : List ℚ) (j : ℕ) : Bool :=
  match pos.expiration_time with
  | some t => decide (t ≤ get0 ts j)
  | none => false

/-- The close-out block of `simulate_position_exits` (simulate_exits.rs,
steps 1-6) executed on the triggering bar `j`. -/
def closePos (pos : Position) (ts high low close : List ℚ)
    (exit_fee_rate slippage_rate : ℚ) (j : ℕ) : Position :=
  let raw_exit := if hitSl pos high low j then pos.sl
                  else if hitTp pos high low j then pos.tp
                  else get0 close j
  let exit_price := if pos.position_type = "long" then raw_exit * (1 - slippage_rate)
                    else raw_exit * (1 + slippage_rate)
  let slippage_exit := |raw_exit - exit_price|
  let fee_exit := pos.position_size * exit_price * exit_fee_rate
  let gross_pnl := if pos.position_type = "long" then (exit_price - pos.entry_price) * pos.position_size
                   else (pos.entry_price - exit_price) * pos.position_size
  let pnl := gross_pnl - (pos.fee_entry + fee_exit)
  let absolute_return := if pos.entry_price ≠ 0 then exit_price / pos.entry_price - 1 else 0
  let real_return := if pos.entry_price * pos.position_size ≠ 0
                     then pnl / (pos.entry_price * pos.position_size) else 0
  { pos with
    exit_index := some j
    exit_price := some exit_price
    exit_condition := some (if hitSl pos high low j then ("SL") else if hitTp pos high low j then ("TP") else ("EXP"))
    slippage_exit := slippage_exit
    fee_exit := fee_exit
    is_closed := true
    absolute_return := some absolute_return
    real_return := some real_return
    pnl := some pnl }

/-- The bar scan `for j in pos.entry_index..n` of `simulate_position_exits`,
as fuel recursion: `exitLoop ... j fuel` walks bars `j, j+1, ...` for `fuel`
steps, closing at the first bar whose trigger fires. -/
def exitLoop (pos : Position) (ts high low close : List ℚ)
    (exit_fee_rate slippage_rate : ℚ) : ℕ → ℕ → Position
  | _, 0 => pos
  | j, fuel + 1 =>
    if hitSl pos high low j || hitTp pos high low j || expired pos ts j then
      closePos pos ts high low close exit_fee_rate slippage_rate j
    else
      exitLoop pos ts high low close exit_fee_rate slippage_rate (j + 1) fuel

/-- Per-position body of `simulate_position_exits` (simulate_exits.rs):
already-closed positions are skipped; otherwise bars
`entry_index, ..., n-1` (`n = high.len()`) are scanned. -/
def simulateOne (ts high low close : List ℚ) (exit_fee_rate slippage_rate : ℚ)
    (pos : Position) : Position :=
  if pos.is_closed then pos
  else exitLoop pos ts high low close exit_fee_rate slippage_rate
    pos.entry_index (high.length - pos.entry_index)

/-- `simulate_position_exits` (simulate_exits.rs).  The Rayon
`par_iter_mut().for_each` writes each position independently from the
read-only bar arrays; its deterministic result is the per-position map. -/
def simulate_position_exits (positions : List Position) (ts high low close : List ℚ)
    (exit_fee_rate slippage_rate : ℚ) : List Position :=
  positions.map (simulateOne ts high low close exit_fee_rate slippage_rate)

/-- `ExposureSnapshot` (exposure.rs). -/
structure ExposureSnapshot where
  timestamp : ℚ
  long_exposure : ℚ
  short_exposure : ℚ
  total_exposure : ℚ
  realized_equity : ℚ
  floating_pnl : ℚ
  total_equity : ℚ
deriving DecidableEq, Repr

instance : Inhabited ExposureSnapshot := ⟨⟨0, 0, 0, 0, 0, 0, 0⟩⟩

/-- The three event vectors of pass 1 of `compute_exposure_series`
(exposure.rs), embedded as index functions (the source allocates
`vec![0.0; n]` and only ever writes indices `< n`; the bounds appear as
hypotheses in the theorems). -/
structure Events where
  realized : ℕ → ℚ
  longD : ℕ → ℚ
  shortD : ℕ → ℚ

/-- `arr[k] += x` on an event vector embedded as a function. -/
def addAt (f : ℕ → ℚ) (k : ℕ) (x : ℚ) : ℕ → ℚ :=
  fun i => if i = k then f i + x else f i

/-- One iteration of the pass-1 loop of `compute_exposure_series`
(exposure.rs): exit events first (realized PnL and the exposure release),
then the entry exposure, with the side picked by `position_type == "long"`. -/
def applyPos (p : Position) (ev : Events) : Events :=
  let ev1 : Events :=
    match p.exit_index with
    | some ei =>
      { realized := addAt ev.realized ei (p.pnl.getD 0)
        longD := if p.position_type = "long" then addAt ev.longD ei (-p.position_size) else ev.longD
        shortD := if p.position_type = "long" then ev.shortD else addAt ev.shortD ei (-p.position_size) }
    | none => ev
  if p.position_type = "long" then
    { ev1 with longD := addAt ev1.longD p.entry_index p.position_size }
  else
    { ev1 with shortD := addAt ev1.shortD p.entry_index p.position_size }

/-- Pass 1 of `compute_exposure_series` (exposure.rs). -/
def buildEvents (positions : List Position) : Events :=
  positions.foldl (fun ev p => applyPos p ev) ⟨fun _ => 0, fun _ => 0, fun _ => 0⟩

/-- The filter `p.entry_index <= i && p.exit_index.map_or(true, |ei| ei > i)`
of the floating-PnL pass (exposure.rs). -/
def openAt (i : ℕ) (p : Position) : Bool :=
  decide (p.entry_index ≤ i) &&
    (match p.exit_index with
     | none => true
     | some ei => decide (i < ei))

/-- Per-position mark-to-market contribution at price `price_i` (exposure.rs). -/
def floatContrib (price_i : ℚ) (p : Position) : ℚ :=
  if p.position_type = "long" then (price_i - p.entry_price) * p.position_size
  else (p.entry_price - price_i) * p.position_size

/-- The floating-PnL inner loop of pass 2 (exposure.rs), in position order. -/
def floatPnl (positions : List Position) (price : List ℚ) (i : ℕ) : ℚ :=
  ((positions.filter (openAt i)).map (floatContrib (get0 price i))).sum

/-- Pass 2 of `compute_exposure_series` (exposure.rs): running prefix sums
`cum_realized`, `long_exp`, `short_exp` plus the floating-PnL scan, one
snapshot per bar.  `expoLoop ... i fuel cum le se` emits the snapshots for
bars `i, ..., i+fuel-1`. -/
def expoLoop (ev : Events) (positions : List Position) (price ts : List ℚ) :
    ℕ → ℕ → ℚ → ℚ → ℚ → List ExposureSnapshot
  | _, 0, _, _, _ => []
  | i, fuel + 1, cum, le, se =>
    let cum2 := cum + ev.realized i
    let le2 := le + ev.longD i
    let se2 := se + ev.shortD i
    let fp := floatPnl positions price i
    { timestamp := get0 ts i, long_exposure := le2, short_exposure := se2,
      total_exposure := le2 + se2, realized_equity := cum2, floating_pnl := fp,
      total_equity := cum2 + fp }
      :: expoLoop ev positions price ts (i + 1) fuel cum2 le2 se2

/-- `compute_exposure_series` (exposure.rs).  The `_initial_equity` scalar is
a parameter of the source function and is never read ("unused in pure-PnL
mode"); `total_equity` is `cum_realized + float_pnl`. -/
def compute_exposure_series (positions : List Position) (price ts : List ℚ)
    (_initial_equity : ℚ) : List ExposureSnapshot :=
  let ev := buildEvents positions
  expoLoop ev positions price ts 0 price.length 0 0 0

/-- `TimeSeriesMetrics` (mod.rs / metrics.rs), restricted to the fields the
claims mention.  The source's `volatility` is the real square root of
`volatility_sq` and `sharpe_ratio` is `mean_return` divided by that root;
neither admits an exact `ℚ` value and no claim under scrutiny mentions them,
so the embedding stores the pre-root value only. -/
structure TimeSeriesMetrics where
  returns : List ℚ
  mean_return : ℚ
  volatility_sq : ℚ
  cumulative_return : ℚ
  max_drawdown : ℚ
deriving DecidableEq, Repr

/-- The max-drawdown fold of `compute_time_metrics` (metrics.rs):
`peak = peak.max(eq); dd = if peak != 0 {(peak-eq)/peak} else {0};
max_dd = max_dd.max(dd)` over every snapshot equity. -/
def mdLoop : ℚ → ℚ → List ℚ → ℚ
  | _, max_dd, [] => max_dd
  | peak, max_dd, e :: rest =>
    let p2 := max peak e
    let dd := if p2 ≠ 0 then (p2 - e) / p2 else 0
    mdLoop p2 (max max_dd dd) rest

/-- `compute_time_metrics` (metrics.rs).  On an empty snapshot series the
source panics (`exposure[0]` for `cumulative_return` and for the drawdown
seed), embedded as `none`. -/
def compute_time_metrics (exposure : List ExposureSnapshot) : Option TimeSeriesMetrics :=
  let n := exposure.length
  let returns := (List.range (n - 1)).map (fun k =>
    let prev := (exposure.getD k default).total_equity
    let cur := (exposure.getD (k + 1) default).total_equity
    if prev ≠ 0 then (cur - prev) / prev else 0)
  let m : ℚ := returns.length
  let mean_return := if 0 < m then returns.sum / m else 0
  let volatility_sq := if 1 < m then
      (returns.map (fun x => (x - mean_return) ^ 2)).sum / (m - 1) else 0
  match exposure with
  | [] => none
  | e0 :: _ =>
    let cum := if e0.total_equity ≠ 0
               then (exposure.getD (n - 1) default).total_equity / e0.total_equity - 1 else 0
    let md := mdLoop e0.total_equity 0 (exposure.map (fun s => s.total_equity))
    some { returns := returns, mean_return := mean_return,
           volatility_sq := volatility_sq, cumulative_return := cum,
           max_drawdown := md }

/-- Stages 3-5 of `run_backtest` (mod.rs) after validation: entries, exits
(in place), then the exposure series over the close prices. -/
def run_stages (ts o high low close : List ℚ) (lng srt : List Bool)
    (ltp lsl stp ssl lsz ssz expt : List ℚ)
    (entry_fee_rate exit_fee_rate slippage_rate initial_equity : ℚ) :
    Except String (List Position × List ExposureSnapshot) :=
  (scan_entries ts o lng srt ltp lsl stp ssl lsz ssz expt entry_fee_rate slippage_rate).map
    (fun ps0 =>
      let ps := simulate_position_exits ps0 ts high low close exit_fee_rate slippage_rate
      (ps, compute_exposure_series ps close ts initial_equity))

/-- Modelled from the claim wording for C7 only (spec §4.5): the per-bar
drawdown list with running peak `p`, where `dd_t = (P - E_t)/P` except
`dd_t = 0` whenever `P ≤ 0`. -/
def specDDList (p : ℚ) : List ℚ → List ℚ
  | [] => []
  | e :: rest =>
    (if max p e ≤ 0 then 0 else (max p e - e) / max p e) :: specDDList (max p e) rest

/-- Modelled from the claim wording for C7 only: the maximum of the per-bar
drawdowns (the running peak starts at the first equity). -/
def specMaxDrawdown : List ℚ → ℚ
  | [] => 0
  | e :: rest => (specDDList e (e :: rest)).foldr max 0

/-- Net contribution of one position to `long_delta` summed over all bars
(used to state the pass-1 sum lemmas). -/
def netLong (p : Position) : ℚ :=
  if p.position_type = "long" then (if p.exit_index.isSome then 0 else p.position_size) else 0

/-- Net contribution of one position to `short_delta` summed over all bars. -/
def netShort (p : Position) : ℚ :=
  if p.position_type = "long" then 0 else (if p.exit_index.isSome then 0 else p.position_size)

/-- The ten entry-side fields of a `Position` that the exit simulator never
writes (claim C10), stated as a joint equality. -/
def sameEntryFields (a b : Position) : Prop :=
  a.position_id = b.position_id ∧ a.position_type = b.position_type ∧
  a.entry_index = b.entry_index ∧ a.entry_price = b.entry_price ∧
  a.tp = b.tp ∧ a.sl = b.sl ∧ a.expiration_time = b.expiration_time ∧
  a.position_size = b.position_size ∧ a.fee_entry = b.fee_entry ∧
  a.slippage_entry = b.slippage_entry

/-- Closed form of the snapshot that `expoLoop` running from bar `i` with
accumulators `cum`, `le`, `se` emits at offset `k` (proved in
`expoLoop_get`): each accumulator has absorbed the events of bars
`i, ..., i+k`. -/
def snapAt (ev : Events) (ps : List Position) (price ts : List ℚ)
    (i k : ℕ) (cum le se : ℚ) : ExposureSnapshot :=
  { timestamp := get0 ts (i + k)
    long_exposure := le + ∑ j ∈ Finset.Ico i (i + k + 1), ev.longD j
    short_exposure := se + ∑ j ∈ Finset.Ico i (i + k + 1), ev.shortD j
    total_exposure := (le + ∑ j ∈ Finset.Ico i (i + k + 1), ev.longD j) +
      (se + ∑ j ∈ Finset.Ico i (i + k + 1), ev.shortD j)
    realized_equity := cum + ∑ j ∈ Finset.Ico i (i + k + 1), ev.realized j
    floating_pnl := floatPnl ps price (i + k)
    total_equity := (cum + ∑ j ∈ Finset.Ico i (i + k + 1), ev.realized j) +
      floatPnl ps price (i + k) }

/-- Concrete fixture: a still-open LONG position of size 5 entered at bar 0. -/
def c4posLong : Position :=
  { position_id := 1, position_type := "long", entry_index := 0, entry_price := 10,
    tp := 0, sl := 0, expiration_time := none, exit_index := none, exit_price := none,
    exit_condition := none, position_size := 5, fee_entry := 0, fee_exit := 0,
    slippage_entry := 0, slippage_exit := 0, absolute_return := none,
    real_return := none, pnl := none, is_closed := false }

/-- Concrete fixture: a SHORT position of size 3 entered and closed at bar 0. -/
def c4posShort : Position :=
  { position_id := 1, position_type := "short", entry_index := 0, entry_price := 10,
    tp := 0, sl := 0, expiration_time := none, exit_index := some 0, exit_price := some 10,
    exit_condition := none, position_size := 3, fee_entry := 0, fee_exit := 0,
    slippage_entry := 0, slippage_exit := 0, absolute_return := none,
    real_return := none, pnl := some 2, is_closed := true }

/-- Concrete fixture for the pipeline: a 2-bar run with one long signal on
bar 0, zero rates, whose position stays open. -/
def c9run : List Position × List ExposureSnapshot :=
  (run_stages [1, 2] [10, 10] [10, 10] [10, 10] [10, 10] [true, false] [false, false]
    [100, 100] [1, 1] [0, 0] [0, 0] [1, 1] [0, 0] [99, 99] 0 0 0 5).toOption.getD ([], [])

/-- The all-zero snapshot carrying timestamp `t` (what bar 0 of a run with no
bar-0 entries emits). -/
def zeroSnap (t : ℚ) : ExposureSnapshot :=
  { timestamp := t, long_exposure := 0, short_exposure := 0, total_exposure := 0,
    realized_equity := 0, floating_pnl := 0, total_equity := 0 }

theorem sameEntryFields_refl (a : Position) : sameEntryFields a a :=
  ⟨rfl, rfl, rfl, rfl, rfl, rfl, rfl, rfl, rfl, rfl⟩

theorem closePos_frame (pos : Position) (ts high low close : List ℚ)
    (fr sr : ℚ) (j : ℕ) :
    sameEntryFields (closePos pos ts high low close fr sr j) pos := by
  simp [sameEntryFields, closePos]

theorem exitLoop_frame (pos : Position) (ts high low close : List ℚ)
    (fr sr : ℚ) : ∀ fuel j,
    sameEntryFields (exitLoop pos ts high low close fr sr j fuel) pos := by
  intro fuel
  induction fuel with
  | zero => intro j; exact sameEntryFields_refl pos
  | succ fuel ih =>
    intro j
    simp only [exitLoop]
    by_cases h : (hitSl pos high low j || hitTp pos high low j || expired pos ts j) = true
    · rw [if_pos h]; exact closePos_frame pos ts high low close fr sr j
    · rw [if_neg h]; exact ih (j + 1)

theorem simulateOne_frame (ts high low close : List ℚ) (fr sr : ℚ)
    (pos : Position) :
    sameEntryFields (simulateOne ts high low close fr sr pos) pos := by
  unfold simulateOne
  by_cases h : pos.is_closed = true
  · rw [if_pos h]; exact sameEntryFields_refl pos
  · rw [if_neg h]; exact exitLoop_frame pos ts high low close fr sr _ _

/-- C10: the exit simulator writes only the exit/result fields; for every
position (closing or not), `position_id`, `position_type`, `entry_index`,
`entry_price`, `tp`, `sl`, `expiration_time`, `position_size`, `fee_entry`
and `slippage_entry` are unchanged by `simulate_position_exits`. -/
theorem C10_exit_sim_frame (ps : List Position) (ts high low close : List ℚ)
    (fr sr : ℚ) (i : ℕ) :
    sameEntryFields ((simulate_position_exits ps ts high low close fr sr).getD i default)
      (ps.getD i default) := by
  simp only [simulate_position_exits, List.getD_eq_getElem?_getD, List.getElem?_map]
  cases h : ps[i]? with
  | none => exact sameEntryFields_refl default
  | some p => exact simulateOne_frame ts high low close fr sr p

theorem exitLoop_first (pos : Position) (ts high low close : List ℚ)
    (fr sr : ℚ) : ∀ fuel j0 j, j0 ≤ j → j < j0 + fuel →
    (hitSl pos high low j || hitTp pos high low j || expired pos ts j) = true →
    (∀ k, j0 ≤ k → k < j →
      (hitSl pos high low k || hitTp pos high low k || expired pos ts k) = false) →
    exitLoop pos ts high low close fr sr j0 fuel =
      closePos pos ts high low close fr sr j := by
  intro fuel
  induction fuel with
  | zero => intro j0 j h1 h2 _ _; omega
  | succ fuel ih =>
    intro j0 j h1 h2 h3 h4
    simp only [exitLoop]
    by_cases hj : j0 = j
    · subst hj; rw [if_pos h3]
    · have hlt : j0 < j := lt_of_le_of_ne h1 hj
      have h0 := h4 j0 le_rfl hlt
      rw [h0]
      simp only [Bool.false_eq_true, if_false]
      exact ih (j0 + 1) j (by omega) (by omega) h3 (fun k hk1 hk2 => h4 k (by omega) hk2)

/-- C3: on the first bar `j ≥ entry_index` where any of `hit_sl`, `hit_tp`,
`expired` holds, the simulator closes the position with fixed precedence
SL over TP over EXP: condition `"SL"` and raw price `sl` when `hit_sl`,
else `"TP"` with raw price `tp`, else `"EXP"` with raw price `close[j]`
(the stored `exit_price` is the raw price with exit slippage applied). -/
theorem C3_exit_precedence (pos : Position) (ts high low close : List ℚ)
    (fr sr : ℚ) (j : ℕ)
    (hopen : pos.is_closed = false)
    (hlo : pos.entry_index ≤ j) (hhi : j < high.length)
    (htrig : (hitSl pos high low j || hitTp pos high low j || expired pos ts j) = true)
    (hfirst : ∀ k, pos.entry_index ≤ k → k < j →
      (hitSl pos high low k || hitTp pos high low k || expired pos ts k) = false) :
    simulateOne ts high low close fr sr pos = closePos pos ts high low close fr sr j ∧
    (closePos pos ts high low close fr sr j).is_closed = true ∧
    (closePos pos ts high low close fr sr j).exit_index = some j ∧
    (hitSl pos high low j = true →
      (closePos pos ts high low close fr sr j).exit_condition = some ("SL") ∧
      (closePos pos ts high low close fr sr j).exit_price =
        some (if pos.position_type = "long" then pos.sl * (1 - sr) else pos.sl * (1 + sr))) ∧
    (hitSl pos high low j = false → hitTp pos high low j = true →
      (closePos pos ts high low close fr sr j).exit_condition = some ("TP") ∧
      (closePos pos ts high low close fr sr j).exit_price =
        some (if pos.position_type = "long" then pos.tp * (1 - sr) else pos.tp * (1 + sr))) ∧
    (hitSl pos high low j = false → hitTp pos high low j = false →
      (closePos pos ts high low close fr sr j).exit_condition = some ("EXP") ∧
      (closePos pos ts high low close fr sr j).exit_price =
        some (if pos.position_type = "long" then get0 close j * (1 - sr)
              else get0 close j * (1 + sr))) := by
  refine ⟨?_, ?_, ?_, ?_, ?_, ?_⟩
  · unfold simulateOne
    rw [hopen]
    simp only [Bool.false_eq_true, if_false]
    exact exitLoop_first pos ts high low close fr sr (high.length - pos.entry_index)
      pos.entry_index j hlo (by omega) htrig hfirst
  · simp [closePos]
  · simp [closePos]
  · intro hS; constructor
    · simp [closePos, hS]
    · simp [closePos, hS]
  · intro hS hT; constructor
    · simp [closePos, hS, hT]
    · simp [closePos, hS, hT]
  · intro hS hT; constructor
    · simp [closePos, hS, hT]
    · simp [closePos, hS, hT]

/-- C3 witness: a long position whose SL and TP are both hit on its entry bar
(spec scenario S4) closes as SL at the stop price. -/
theorem C3_witness :
    (1 : ℕ) ≤ 1 ∧
    simulateOne [1, 2] [100, 120] [100, 80] [100, 100] 0 0
        { position_id := 2, position_type := "long", entry_index := 1,
          entry_price := 100, tp := 110, sl := 90, expiration_time := none,
          exit_index := none, exit_price := none, exit_condition := none,
          position_size := 1, fee_entry := 0, fee_exit := 0,
          slippage_entry := 0, slippage_exit := 0, absolute_return := none,
          real_return := none, pnl := none, is_closed := false } =
      closePos
        { position_id := 2, position_type := "long", entry_index := 1,
          entry_price := 100, tp := 110, sl := 90, expiration_time := none,
          exit_index := none, exit_price := none, exit_condition := none,
          position_size := 1, fee_entry := 0, fee_exit := 0,
          slippage_entry := 0, slippage_exit := 0, absolute_return := none,
          real_return := none, pnl := none, is_closed := false }
        [1, 2] [100, 120] [100, 80] [100, 100] 0 0 1 := by
  constructor
  · exact le_refl 1
  · exact (C3_exit_precedence
      { position_id := 2, position_type := "long", entry_index := 1,
        entry_price := 100, tp := 110, sl := 90, expiration_time := none,
        exit_index := none, exit_price := none, exit_condition := none,
        position_size := 1, fee_entry := 0, fee_exit := 0,
        slippage_entry := 0, slippage_exit := 0, absolute_return := none,
        real_return := none, pnl := none, is_closed := false }
      [1, 2] [100, 120] [100, 80] [100, 100] 0 0 1
      rfl (le_refl 1) (by decide) (by decide)
      (fun k hk1 hk2 => absurd hk2 (Nat.not_lt.mpr hk1))).1

theorem expoLoop_total (ev : Events) (ps : List Position) (price ts : List ℚ) :
    ∀ fuel i cum le se, ∀ s ∈ expoLoop ev ps price ts i fuel cum le se,
    s.total_equity = s.realized_equity + s.floating_pnl := by
  intro fuel
  induction fuel with
  | zero => intro i cum le se s hs; simp [expoLoop] at hs
  | succ fuel ih =>
    intro i cum le se s hs
    simp only [expoLoop, List.mem_cons] at hs
    rcases hs with h | h
    · subst h; rfl
    · exact ih (i + 1) _ _ _ s h

/-- C1 (amended): every snapshot emitted by `compute_exposure_series` has
`total_equity = realized_equity + floating_pnl`; the `initial_equity`
parameter is not read (the series is identical for any value of it). -/
theorem C1_total_equity_amended (ps : List Position) (price ts : List ℚ)
    (init : ℚ) :
    (∀ s ∈ compute_exposure_series ps price ts init,
      s.total_equity = s.realized_equity + s.floating_pnl) ∧
    compute_exposure_series ps price ts init = compute_exposure_series ps price ts 0 :=
  ⟨fun s hs => expoLoop_total (buildEvents ps) ps price ts price.length 0 0 0 0 s hs, rfl⟩

/-- C1 counterexample: a one-bar run with no positions and
`initial_equity = 1000` has `total_equity = 0`, not
`initial_equity + realized_equity + floating_pnl = 1000`. -/
theorem C1_counterexample :
    ((compute_exposure_series [] [(100 : ℚ)] [(1 : ℚ)] 1000).getD 0 default).total_equity ≠
      1000 + ((compute_exposure_series [] [(100 : ℚ)] [(1 : ℚ)] 1000).getD 0 default).realized_equity
        + ((compute_exposure_series [] [(100 : ℚ)] [(1 : ℚ)] 1000).getD 0 default).floating_pnl := by
  have h : compute_exposure_series [] [(100 : ℚ)] [(1 : ℚ)] 1000 =
      [{ timestamp := 1, long_exposure := 0, short_exposure := 0, total_exposure := 0,
         realized_equity := 0, floating_pnl := 0, total_equity := 0 }] := by
    simp [compute_exposure_series, expoLoop, buildEvents, floatPnl, get0]
  rw [h]
  norm_num [List.getD]

/-- C1 witness: the amended identity evaluated on the one-bar run. -/
theorem C1_witness :
    ((compute_exposure_series [] [(100 : ℚ)] [(1 : ℚ)] 1000).getD 0 default).total_equity =
      ((compute_exposure_series [] [(100 : ℚ)] [(1 : ℚ)] 1000).getD 0 default).realized_equity
        + ((compute_exposure_series [] [(100 : ℚ)] [(1 : ℚ)] 1000).getD 0 default).floating_pnl :=
  (C1_total_equity_amended [] [(100 : ℚ)] [(1 : ℚ)] 1000).1 _ (by
    have h : compute_exposure_series [] [(100 : ℚ)] [(1 : ℚ)] 1000 =
        [{ timestamp := 1, long_exposure := 0, short_exposure := 0, total_exposure := 0,
           realized_equity := 0, floating_pnl := 0, total_equity := 0 }] := by
      simp [compute_exposure_series, expoLoop, buildEvents, floatPnl, get0]
    rw [h]
    simp [List.getD])

/-- C8: with every input array empty (N = 0) the whole validation layer
passes (`Ok(0)`), the engine stages run, the exposure series is empty, and
`compute_time_metrics` hits the `exposure[0]` / `.last().unwrap()` panic
(embedded as `none`) instead of any structured §7 validation error. -/
theorem C8_empty_input_crash :
    validate_run [] [] [] [] [] [] [] [] [] [] [] [] [] [] = Except.ok 0 ∧
    scan_entries [] [] [] [] [] [] [] [] [] [] [] 0 0 = Except.ok [] ∧
    compute_exposure_series [] [] [] 1000 = [] ∧
    compute_time_metrics [] = none :=
  ⟨rfl, rfl, rfl, rfl⟩

theorem scan_entries_ok (ts o : List ℚ) (lng srt : List Bool)
    (ltp lsl stp ssl lsz ssz expt : List ℚ) (efr sr : ℚ) (ps : List Position)
    (h : scan_entries ts o lng srt ltp lsl stp ssl lsz ssz expt efr sr = Except.ok ps) :
    ps = scanEmit ts o lng srt ltp lsl stp ssl lsz ssz expt efr sr := by
  simp only [scan_entries] at h
  split_ifs at h
  exact (Except.ok.inj h).symm

theorem scanEmit_mem (ts o : List ℚ) (lng srt : List Bool)
    (ltp lsl stp ssl lsz ssz expt : List ℚ) (efr sr : ℚ) (p : Position)
    (hp : p ∈ scanEmit ts o lng srt ltp lsl stp ssl lsz ssz expt efr sr) :
    ∃ i, i < o.length ∧
      ((lng.getD i false = true ∧ p = mkLong ts o ltp lsl lsz expt efr sr o.length i) ∨
       (srt.getD i false = true ∧ p = mkShort ts o stp ssl ssz expt efr sr o.length i)) := by
  simp only [scanEmit, List.mem_flatMap, List.mem_range] at hp
  obtain ⟨i, hi, hmem⟩ := hp
  refine ⟨i, hi, ?_⟩
  rcases List.mem_append.mp hmem with h | h
  · by_cases hl : lng.getD i false = true
    · rw [if_pos hl] at h
      exact Or.inl ⟨hl, List.mem_singleton.mp h⟩
    · rw [if_neg hl] at h
      exact absurd h (List.not_mem_nil p)
  · by_cases hs : srt.getD i false = true
    · rw [if_pos hs] at h
      exact Or.inr ⟨hs, List.mem_singleton.mp h⟩
    · rw [if_neg hs] at h
      exact absurd h (List.not_mem_nil p)

/-- C2 (amended): every position emitted by the entry scanner for a signal at
bar `i` copies `tp` and `sl` from the signal bar `i`, but reads
`expiration_time` at the fill bar `entry_index = entryIdx N i`
(`expiration_times.get(entry_idx)`), not at the signal bar. -/
theorem C2_levels_amended (ts o : List ℚ) (lng srt : List Bool)
    (ltp lsl stp ssl lsz ssz expt : List ℚ) (efr sr : ℚ)
    (ps : List Position) (p : Position)
    (hscan : scan_entries ts o lng srt ltp lsl stp ssl lsz ssz expt efr sr = Except.ok ps)
    (hp : p ∈ ps) :
    ∃ i, i < o.length ∧ p.entry_index = entryIdx o.length i ∧
      p.expiration_time = expt.get? (entryIdx o.length i) ∧
      ((lng.getD i false = true ∧ p.position_type = "long" ∧
        p.tp = get0 ltp i ∧ p.sl = get0 lsl i) ∨
       (srt.getD i false = true ∧ p.position_type = "short" ∧
        p.tp = get0 stp i ∧ p.sl = get0 ssl i)) := by
  have hps := scan_entries_ok ts o lng srt ltp lsl stp ssl lsz ssz expt efr sr ps hscan
  subst hps
  obtain ⟨i, hi, hcase⟩ := scanEmit_mem ts o lng srt ltp lsl stp ssl lsz ssz expt efr sr p hp
  rcases hcase with ⟨hl, rfl⟩ | ⟨hs, rfl⟩
  · exact ⟨i, hi, rfl, rfl, Or.inl ⟨hl, rfl, rfl, rfl⟩⟩
  · exact ⟨i, hi, rfl, rfl, Or.inr ⟨hs, rfl, rfl, rfl⟩⟩

/-- C2 counterexample: a long signal at bar 0 of a 2-bar run with
`expiration_times = [50, 60]` produces a position whose `expiration_time` is
60 — the fill bar's value — not the signal bar's value 50. -/
theorem C2_counterexample :
    (scan_entries [1, 2] [10, 10] [true, false] [false, false] [100, 200] [1, 2]
        [0, 0] [0, 0] [1, 1] [0, 0] [50, 60] 0 0).map
      (fun ps => (ps.getD 0 default).expiration_time) = Except.ok (some 60) ∧
    some ((60 : ℚ)) ≠ some ((50 : ℚ)) := by
  refine ⟨rfl, ?_⟩
  decide

/-- C2 witness: the amended statement evaluated on the 2-bar run above. -/
theorem C2_witness :
    ∃ i, i < 2 ∧
      (mkLong [1, 2] [10, 10] [100, 200] [1, 2] [1, 1] [50, 60] 0 0 2 0).entry_index = entryIdx 2 i ∧
      (mkLong [1, 2] [10, 10] [100, 200] [1, 2] [1, 1] [50, 60] 0 0 2 0).expiration_time
        = ([(50 : ℚ), 60] : List ℚ).get? (entryIdx 2 i) ∧
      ((([true, false] : List Bool).getD i false = true ∧
        (mkLong [1, 2] [10, 10] [100, 200] [1, 2] [1, 1] [50, 60] 0 0 2 0).position_type = "long" ∧
        (mkLong [1, 2] [10, 10] [100, 200] [1, 2] [1, 1] [50, 60] 0 0 2 0).tp = get0 [100, 200] i ∧
        (mkLong [1, 2] [10, 10] [100, 200] [1, 2] [1, 1] [50, 60] 0 0 2 0).sl = get0 [1, 2] i) ∨
       (([false, false] : List Bool).getD i false = true ∧
        (mkLong [1, 2] [10, 10] [100, 200] [1, 2] [1, 1] [50, 60] 0 0 2 0).position_type = "short" ∧
        (mkLong [1, 2] [10, 10] [100, 200] [1, 2] [1, 1] [50, 60] 0 0 2 0).tp = get0 [0, 0] i ∧
        (mkLong [1, 2] [10, 10] [100, 200] [1, 2] [1, 1] [50, 60] 0 0 2 0).sl = get0 [0, 0] i)) :=
  C2_levels_amended [1, 2] [10, 10] [true, false] [false, false] [100, 200] [1, 2]
    [0, 0] [0, 0] [1, 1] [0, 0] [50, 60] 0 0
    ((scan_entries [1, 2] [10, 10] [true, false] [false, false] [100, 200] [1, 2]
        [0, 0] [0, 0] [1, 1] [0, 0] [50, 60] 0 0).toOption.getD [])
    (mkLong [1, 2] [10, 10] [100, 200] [1, 2] [1, 1] [50, 60] 0 0 2 0)
    rfl
    (show mkLong [1, 2] [10, 10] [100, 200] [1, 2] [1, 1] [50, 60] 0 0 2 0 ∈
        [mkLong [1, 2] [10, 10] [100, 200] [1, 2] [1, 1] [50, 60] 0 0 2 0] from
      List.mem_singleton_self _)

theorem foldr_max_zero_nonneg : ∀ l : List ℚ, 0 ≤ l.foldr max 0 := by
  intro l
  induction l with
  | nil => exact le_refl 0
  | cons a l ih => exact le_trans ih (le_max_right a _)

theorem le_foldr_max (l : List ℚ) : ∀ d ∈ l, d ≤ l.foldr max 0 := by
  induction l with
  | nil => intro d hd; cases hd
  | cons a l ih =>
    intro d hd
    rcases List.mem_cons.mp hd with rfl | h
    · exact le_max_left d _
    · exact le_trans (ih d h) (le_max_right a _)

theorem mdLoop_eq_spec : ∀ (l : List ℚ) (p m : ℚ), 0 ≤ m →
    mdLoop p m l = max m ((specDDList p l).foldr max 0) := by
  intro l
  induction l with
  | nil =>
    intro p m hm
    simp only [mdLoop, specDDList, List.foldr_nil]
    exact (max_eq_left hm).symm
  | cons e l ih =>
    intro p m hm
    simp only [mdLoop, specDDList, List.foldr_cons]
    rw [ih (max p e) _ (le_trans hm (le_max_left m _))]
    by_cases hp : (0 : ℚ) < max p e
    · rw [if_pos (ne_of_gt hp), if_neg (not_le.mpr hp)]
      exact max_assoc m _ _
    · have hle : max p e ≤ 0 := not_lt.mp hp
      rw [if_pos hle]
      by_cases h0 : max p e = 0
      · rw [if_neg (by simp [h0])]
        exact max_assoc m 0 _
      · rw [if_pos h0]
        have hddc : (max p e - e) / max p e ≤ 0 :=
          div_nonpos_iff.mpr (Or.inl ⟨sub_nonneg.mpr (le_max_right p e), hle⟩)
        rw [max_eq_left (le_trans hddc hm),
          max_eq_right (foldr_max_zero_nonneg ((specDDList (max p e) l)))]

/-- C7: the `max_drawdown` of `compute_time_metrics` equals the maximum of
the per-bar drawdowns `dd_t = (P - E_t)/P` (0 whenever the running peak
`P ≤ 0`), the spec-side procedure embedded as `specMaxDrawdown`; every
per-bar drawdown is bounded by it and it is non-negative. -/
theorem C7_max_drawdown (e0 : ExposureSnapshot) (rest : List ExposureSnapshot) :
    (compute_time_metrics (e0 :: rest)).map (fun t => t.max_drawdown) =
      some (specMaxDrawdown ((e0 :: rest).map (fun s => s.total_equity))) ∧
    (∀ d ∈ specDDList e0.total_equity ((e0 :: rest).map (fun s => s.total_equity)),
      d ≤ specMaxDrawdown ((e0 :: rest).map (fun s => s.total_equity))) ∧
    0 ≤ specMaxDrawdown ((e0 :: rest).map (fun s => s.total_equity)) := by
  have hspec : specMaxDrawdown ((e0 :: rest).map (fun s => s.total_equity)) =
      (specDDList e0.total_equity
        (e0.total_equity :: rest.map (fun s => s.total_equity))).foldr max 0 := by
    simp only [List.map_cons, specMaxDrawdown]
  refine ⟨?_, ?_, ?_⟩
  · simp only [compute_time_metrics, Option.map_some]
    rw [hspec]
    have := mdLoop_eq_spec (e0.total_equity :: rest.map (fun s => s.total_equity))
      e0.total_equity 0 (le_refl 0)
    simp only [List.map_cons]
    rw [this, max_eq_right (foldr_max_zero_nonneg _)]
    rfl
  · intro d hd
    rw [hspec]
    exact le_foldr_max _ d (by simpa only [List.map_cons] using hd)
  · rw [hspec]
    exact foldr_max_zero_nonneg _

/-- C5 (amended): with the earlier per-array checks passing (no NaN in
`timestamp`, all core lengths equal), `prepare_inputs` raises the
"Input contains NaN" error exactly when one of open/high/low/close contains a
NaN value.  Infinities do not trigger it — the source checks `is_nan()` only
(see `C5_counterexample`). -/
theorem C5_nan_only_amended (ts o hg lw cl : List FVal)
    (hts : ts.any FVal.isNan = false)
    (ho : o.length = ts.length) (hh : hg.length = ts.length)
    (hl2 : lw.length = ts.length) (hc : cl.length = ts.length) :
    prepare_inputs [ts, o, hg, lw, cl] = Except.error ("Input contains NaN") ↔
      (o.any FVal.isNan = true ∨ hg.any FVal.isNan = true ∨
       lw.any FVal.isNan = true ∨ cl.any FVal.isNan = true) := by
  simp only [prepare_inputs, List.headD, prepInner, ho, hh, hl2, hc, hts,
    ne_eq, not_true_eq_false, if_false]
  by_cases h1 : o.any FVal.isNan = true <;>
    by_cases h2 : hg.any FVal.isNan = true <;>
      by_cases h3 : lw.any FVal.isNan = true <;>
        by_cases h4 : cl.any FVal.isNan = true <;>
          simp [h1, h2, h3, h4, Except.map]

/-- C5 counterexample: an infinite `open` price sails through the whole
validation layer — the run is accepted (`Ok(1)`), it is not rejected with any
non-finite-price error. -/
theorem C5_counterexample :
    validate_run [FVal.fin 1] [FVal.inf] [FVal.fin 1] [FVal.fin 1] [FVal.fin 1]
      [false] [false] [FVal.fin 0] [FVal.fin 0] [FVal.fin 0] [FVal.fin 0]
      [FVal.fin 0] [FVal.fin 0] [FVal.fin 5] = Except.ok 1 := rfl

/-- C5 witness: a NaN in `open` (lengths equal, NaN-free timestamps) does
raise the "Input contains NaN" error. -/
theorem C5_witness :
    prepare_inputs [[FVal.fin 1], [FVal.nan], [FVal.fin 1], [FVal.fin 1], [FVal.fin 1]] =
      Except.error ("Input contains NaN") :=
  (C5_nan_only_amended [FVal.fin 1] [FVal.nan] [FVal.fin 1] [FVal.fin 1] [FVal.fin 1]
    rfl rfl rfl rfl rfl).mpr (Or.inl rfl)

theorem prepare_inputs_ok_length (ts o hg lw cl : List FVal) (n : ℕ)
    (h : prepare_inputs [ts, o, hg, lw, cl] = Except.ok n) : n = ts.length := by
  simp only [prepare_inputs, List.headD_cons] at h
  cases hp : prepInner ts.length [ts, o, hg, lw, cl] with
  | error e =>
    rw [hp] at h
    exact absurd h (by simp [Except.map])
  | ok u =>
    rw [hp] at h
    simp only [Except.map] at h
    exact (Except.ok.inj h).symm

/-- C6 (amended): `run_backtest` validates in the source order
(1) strict timestamp increase, (2) signal mutual exclusion,
(3) `prepare_inputs` over `[ts,open,high,low,close]` (per-array length check
then NaN check), (4) the nine remaining length checks, (5) expiration sanity —
not in the claimed order lengths → finiteness → timestamps → exclusion →
expiration.  The first violated check in the source order determines the error
kind, and on any error no stage output is produced (`Except.error`).  Every
conjunct about a stage past the exclusion loop assumes the two signal arrays
have the timestamp length: when they are shorter, the source's exclusion loop
panics on an out-of-bounds `long_sig[i]`/`short_sig[i]` read instead of
reaching the later checks. -/
theorem C6_validation_order_amended (ts o hg lw cl : List FVal) (lng srt : List Bool)
    (ltp lsl stp ssl lsz ssz expt : List FVal) :
    ((¬ ∀ i ∈ List.range (ts.length - 1), fgt (getF ts (i + 1)) (getF ts i) = true) →
      validate_run ts o hg lw cl lng srt ltp lsl stp ssl lsz ssz expt =
        Except.error ErrKind.timestampsNotIncreasing) ∧
    ((∀ i ∈ List.range (ts.length - 1), fgt (getF ts (i + 1)) (getF ts i) = true) →
     (∃ i ∈ List.range ts.length, lng.getD i false = true ∧ srt.getD i false = true) →
      validate_run ts o hg lw cl lng srt ltp lsl stp ssl lsz ssz expt =
        Except.error ErrKind.signalConflict) ∧
    ((∀ i ∈ List.range (ts.length - 1), fgt (getF ts (i + 1)) (getF ts i) = true) →
     lng.length = ts.length → srt.length = ts.length →
     (¬ ∃ i ∈ List.range ts.length, lng.getD i false = true ∧ srt.getD i false = true) →
     ∀ m, prepare_inputs [ts, o, hg, lw, cl] = Except.error m →
      validate_run ts o hg lw cl lng srt ltp lsl stp ssl lsz ssz expt =
        Except.error (msgKind m)) ∧
    ((∀ i ∈ List.range (ts.length - 1), fgt (getF ts (i + 1)) (getF ts i) = true) →
     lng.length = ts.length → srt.length = ts.length →
     (¬ ∃ i ∈ List.range ts.length, lng.getD i false = true ∧ srt.getD i false = true) →
     ∀ n, prepare_inputs [ts, o, hg, lw, cl] = Except.ok n →
     (¬ (ltp.length = n ∧ lsl.length = n ∧ stp.length = n ∧ ssl.length = n ∧
       lsz.length = n ∧ ssz.length = n ∧ expt.length = n)) →
      validate_run ts o hg lw cl lng srt ltp lsl stp ssl lsz ssz expt =
        Except.error ErrKind.lengthMismatch) ∧
    ((∀ i ∈ List.range (ts.length - 1), fgt (getF ts (i + 1)) (getF ts i) = true) →
     lng.length = ts.length → srt.length = ts.length →
     (¬ ∃ i ∈ List.range ts.length, lng.getD i false = true ∧ srt.getD i false = true) →
     ∀ n, prepare_inputs [ts, o, hg, lw, cl] = Except.ok n →
     (ltp.length = n ∧ lsl.length = n ∧ stp.length = n ∧ ssl.length = n ∧
      lsz.length = n ∧ ssz.length = n ∧ expt.length = n) →
     (∃ i ∈ List.range n, flt (getF expt i) (getF ts i) = true) →
      validate_run ts o hg lw cl lng srt ltp lsl stp ssl lsz ssz expt =
        Except.error ErrKind.expirationInPast) ∧
    ((∀ i ∈ List.range (ts.length - 1), fgt (getF ts (i + 1)) (getF ts i) = true) →
     lng.length = ts.length → srt.length = ts.length →
     (¬ ∃ i ∈ List.range ts.length, lng.getD i false = true ∧ srt.getD i false = true) →
     ∀ n, prepare_inputs [ts, o, hg, lw, cl] = Except.ok n →
     (ltp.length = n ∧ lsl.length = n ∧ stp.length = n ∧ ssl.length = n ∧
      lsz.length = n ∧ ssz.length = n ∧ expt.length = n) →
     (¬ ∃ i ∈ List.range n, flt (getF expt i) (getF ts i) = true) →
      validate_run ts o hg lw cl lng srt ltp lsl stp ssl lsz ssz expt =
        Except.ok n) := by
  have hincr : tsStrictlyIncreasing ts = true ↔
      (∀ i ∈ List.range (ts.length - 1), fgt (getF ts (i + 1)) (getF ts i) = true) := by
    simp [tsStrictlyIncreasing, List.all_eq_true]
  have hconf : ((List.range ts.length).any (fun i => lng.getD i false && srt.getD i false) = true) ↔
      (∃ i ∈ List.range ts.length, lng.getD i false = true ∧ srt.getD i false = true) := by
    simp [List.any_eq_true]
  refine ⟨?_, ?_, ?_, ?_, ?_, ?_⟩
  · intro hni
    have hf : tsStrictlyIncreasing ts = false := by
      cases hb : tsStrictlyIncreasing ts
      · rfl
      · exact absurd (hincr.mp hb) hni
    unfold validate_run
    rw [if_pos hf]
  · intro hi hc
    have h1 : tsStrictlyIncreasing ts = true := hincr.mpr hi
    have h2 := hconf.mpr hc
    unfold validate_run
    rw [if_neg (by rw [h1]; exact fun hh => Bool.noConfusion hh), if_pos h2]
  · intro hi _hlng _hsrt hc m hm
    have h1 : tsStrictlyIncreasing ts = true := hincr.mpr hi
    have h2 : (List.range ts.length).any (fun i => lng.getD i false && srt.getD i false) = false := by
      cases hb : (List.range ts.length).any (fun i => lng.getD i false && srt.getD i false)
      · rfl
      · exact absurd (hconf.mp hb) hc
    unfold validate_run
    rw [if_neg (by rw [h1]; exact fun hh => Bool.noConfusion hh),
      if_neg (by rw [h2]; exact fun hh => Bool.noConfusion hh), hm]
  · intro hi hlng hsrt hc n hn hbad
    have h1 : tsStrictlyIncreasing ts = true := hincr.mpr hi
    have h2 : (List.range ts.length).any (fun i => lng.getD i false && srt.getD i false) = false := by
      cases hb : (List.range ts.length).any (fun i => lng.getD i false && srt.getD i false)
      · rfl
      · exact absurd (hconf.mp hb) hc
    have hnts := prepare_inputs_ok_length ts o hg lw cl n hn
    have e1 : lng.length = n := by rw [hlng, hnts]
    have e2 : srt.length = n := by rw [hsrt, hnts]
    have hv : validate_run ts o hg lw cl lng srt ltp lsl stp ssl lsz ssz expt =
        lenChecks ts lng srt ltp lsl stp ssl lsz ssz expt n := by
      unfold validate_run
      rw [if_neg (by rw [h1]; exact fun hh => Bool.noConfusion hh),
        if_neg (by rw [h2]; exact fun hh => Bool.noConfusion hh), hn]
    rw [hv]
    unfold lenChecks
    rw [if_neg (by rw [e1]; exact fun hh => hh rfl), if_neg (by rw [e2]; exact fun hh => hh rfl)]
    by_cases c3 : ltp.length = n
    · rw [if_neg (by rw [c3]; exact fun hh => hh rfl)]
      by_cases c4 : lsl.length = n
      · rw [if_neg (by rw [c4]; exact fun hh => hh rfl)]
        by_cases c5 : stp.length = n
        · rw [if_neg (by rw [c5]; exact fun hh => hh rfl)]
          by_cases c6 : ssl.length = n
          · rw [if_neg (by rw [c6]; exact fun hh => hh rfl)]
            by_cases c7 : lsz.length = n
            · rw [if_neg (by rw [c7]; exact fun hh => hh rfl)]
              by_cases c8 : ssz.length = n
              · rw [if_neg (by rw [c8]; exact fun hh => hh rfl)]
                by_cases c9 : expt.length = n
                · exact absurd ⟨c3, c4, c5, c6, c7, c8, c9⟩ hbad
                · rw [if_pos c9]
              · rw [if_pos c8]
            · rw [if_pos c7]
          · rw [if_pos c6]
        · rw [if_pos c5]
      · rw [if_pos c4]
    · rw [if_pos c3]
  · intro hi hlng hsrt hc n hn hlens hex
    have h1 : tsStrictlyIncreasing ts = true := hincr.mpr hi
    have h2 : (List.range ts.length).any (fun i => lng.getD i false && srt.getD i false) = false := by
      cases hb : (List.range ts.length).any (fun i => lng.getD i false && srt.getD i false)
      · rfl
      · exact absurd (hconf.mp hb) hc
    have h3 : (List.range n).any (fun i => flt (getF expt i) (getF ts i)) = true := by
      simp only [List.any_eq_true]
      obtain ⟨i, hi2, hf⟩ := hex
      exact ⟨i, hi2, hf⟩
    have hnts := prepare_inputs_ok_length ts o hg lw cl n hn
    have e1 : lng.length = n := by rw [hlng, hnts]
    have e2 : srt.length = n := by rw [hsrt, hnts]
    obtain ⟨e3, e4, e5, e6, e7, e8, e9⟩ := hlens
    have hv : validate_run ts o hg lw cl lng srt ltp lsl stp ssl lsz ssz expt =
        lenChecks ts lng srt ltp lsl stp ssl lsz ssz expt n := by
      unfold validate_run
      rw [if_neg (by rw [h1]; exact fun hh => Bool.noConfusion hh),
        if_neg (by rw [h2]; exact fun hh => Bool.noConfusion hh), hn]
    rw [hv]
    unfold lenChecks
    rw [if_neg (by rw [e1]; exact fun hh => hh rfl), if_neg (by rw [e2]; exact fun hh => hh rfl),
      if_neg (by rw [e3]; exact fun hh => hh rfl), if_neg (by rw [e4]; exact fun hh => hh rfl),
      if_neg (by rw [e5]; exact fun hh => hh rfl), if_neg (by rw [e6]; exact fun hh => hh rfl),
      if_neg (by rw [e7]; exact fun hh => hh rfl), if_neg (by rw [e8]; exact fun hh => hh rfl),
      if_neg (by rw [e9]; exact fun hh => hh rfl), if_pos h3]
  · intro hi hlng hsrt hc n hn hlens hex
    have h1 : tsStrictlyIncreasing ts = true := hincr.mpr hi
    have h2 : (List.range ts.length).any (fun i => lng.getD i false && srt.getD i false) = false := by
      cases hb : (List.range ts.length).any (fun i => lng.getD i false && srt.getD i false)
      · rfl
      · exact absurd (hconf.mp hb) hc
    have h3 : (List.range n).any (fun i => flt (getF expt i) (getF ts i)) = false := by
      cases hb : (List.range n).any (fun i => flt (getF expt i) (getF ts i))
      · rfl
      · exact absurd (by simpa [List.any_eq_true] using hb) hex
    have hnts := prepare_inputs_ok_length ts o hg lw cl n hn
    have e1 : lng.length = n := by rw [hlng, hnts]
    have e2 : srt.length = n := by rw [hsrt, hnts]
    obtain ⟨e3, e4, e5, e6, e7, e8, e9⟩ := hlens
    have hv : validate_run ts o hg lw cl lng srt ltp lsl stp ssl lsz ssz expt =
        lenChecks ts lng srt ltp lsl stp ssl lsz ssz expt n := by
      unfold validate_run
      rw [if_neg (by rw [h1]; exact fun hh => Bool.noConfusion hh),
        if_neg (by rw [h2]; exact fun hh => Bool.noConfusion hh), hn]
    rw [hv]
    unfold lenChecks
    rw [if_neg (by rw [e1]; exact fun hh => hh rfl), if_neg (by rw [e2]; exact fun hh => hh rfl),
      if_neg (by rw [e3]; exact fun hh => hh rfl), if_neg (by rw [e4]; exact fun hh => hh rfl),
      if_neg (by rw [e5]; exact fun hh => hh rfl), if_neg (by rw [e6]; exact fun hh => hh rfl),
      if_neg (by rw [e7]; exact fun hh => hh rfl), if_neg (by rw [e8]; exact fun hh => hh rfl),
      if_neg (by rw [e9]; exact fun hh => hh rfl),
      if_neg (by rw [h3]; exact fun hh => Bool.noConfusion hh)]

/-- C6 counterexample: an input violating both the length check (`open` has
length 1, `timestamp` length 2) and the timestamp check (decreasing) fails
with `timestampsNotIncreasing`, not with the `lengthMismatch` the claimed
check order (lengths first) would demand. -/
theorem C6_counterexample :
    validate_run [FVal.fin 2, FVal.fin 1] [FVal.fin 1]
      [FVal.fin 1, FVal.fin 1] [FVal.fin 1, FVal.fin 1] [FVal.fin 1, FVal.fin 1]
      [false, false] [false, false]
      [FVal.fin 0, FVal.fin 0] [FVal.fin 0, FVal.fin 0] [FVal.fin 0, FVal.fin 0]
      [FVal.fin 0, FVal.fin 0] [FVal.fin 0, FVal.fin 0] [FVal.fin 0, FVal.fin 0]
      [FVal.fin 9, FVal.fin 9] = Except.error ErrKind.timestampsNotIncreasing ∧
    ErrKind.timestampsNotIncreasing ≠ ErrKind.lengthMismatch :=
  ⟨rfl, by decide⟩

/-- C6 witness: a fully valid 2-bar input passes every check in order and the
validator returns its length. -/
theorem C6_witness :
    validate_run [FVal.fin 1, FVal.fin 2]
      [FVal.fin 1, FVal.fin 1] [FVal.fin 1, FVal.fin 1] [FVal.fin 1, FVal.fin 1]
      [FVal.fin 1, FVal.fin 1] [false, false] [false, false]
      [FVal.fin 0, FVal.fin 0] [FVal.fin 0, FVal.fin 0] [FVal.fin 0, FVal.fin 0]
      [FVal.fin 0, FVal.fin 0] [FVal.fin 0, FVal.fin 0] [FVal.fin 0, FVal.fin 0]
      [FVal.fin 9, FVal.fin 9] = Except.ok 2 :=
  (C6_validation_order_amended [FVal.fin 1, FVal.fin 2]
      [FVal.fin 1, FVal.fin 1] [FVal.fin 1, FVal.fin 1] [FVal.fin 1, FVal.fin 1]
      [FVal.fin 1, FVal.fin 1] [false, false] [false, false]
      [FVal.fin 0, FVal.fin 0] [FVal.fin 0, FVal.fin 0] [FVal.fin 0, FVal.fin 0]
      [FVal.fin 0, FVal.fin 0] [FVal.fin 0, FVal.fin 0] [FVal.fin 0, FVal.fin 0]
      [FVal.fin 9, FVal.fin 9]).2.2.2.2.2 (by decide) rfl rfl (by decide) 2 rfl
    ⟨rfl, rfl, rfl, rfl, rfl, rfl, rfl⟩ (by decide)

theorem addAt_sum (f : ℕ → ℚ) (k : ℕ) (x : ℚ) (n : ℕ) (hk : k < n) :
    ∑ i ∈ Finset.range n, addAt f k x i = (∑ i ∈ Finset.range n, f i) + x := by
  have h1 : ∀ i ∈ Finset.range n, addAt f k x i = f i + (if i = k then x else 0) := by
    intro i _
    unfold addAt
    by_cases hik : i = k
    · rw [if_pos hik, if_pos hik]
    · rw [if_neg hik, if_neg hik, add_zero]
  rw [Finset.sum_congr rfl h1, Finset.sum_add_distrib,
    Finset.sum_ite_eq' (Finset.range n) k (fun _ => x),
    if_pos (Finset.mem_range.mpr hk)]

theorem addAt_ne (f : ℕ → ℚ) (k : ℕ) (x : ℚ) (i : ℕ) (h : i ≠ k) :
    addAt f k x i = f i := if_neg h

theorem applyPos_longD_sum (p : Position) (ev : Events) (n : ℕ)
    (he : p.entry_index < n) (hx : ∀ e ∈ p.exit_index, e < n) :
    ∑ i ∈ Finset.range n, (applyPos p ev).longD i =
      (∑ i ∈ Finset.range n, ev.longD i) + netLong p := by
  cases hxe : p.exit_index with
  | none =>
    by_cases ht : p.position_type = "long"
    · simp only [applyPos, netLong, hxe, ht, if_pos, if_true]
      rw [addAt_sum _ _ _ _ he]
      simp [Option.isSome]
    · simp only [applyPos, netLong, hxe, ht, if_neg, if_false]
      simp
  | some ei =>
    have hei : ei < n := hx ei (Option.mem_def.mpr hxe)
    by_cases ht : p.position_type = "long"
    · simp only [applyPos, netLong, hxe, ht, if_pos, if_true]
      rw [addAt_sum _ _ _ _ he, addAt_sum _ _ _ _ hei]
      simp [Option.isSome]
    · simp only [applyPos, netLong, hxe, ht, if_neg, if_false]
      simp

theorem applyPos_shortD_sum (p : Position) (ev : Events) (n : ℕ)
    (he : p.entry_index < n) (hx : ∀ e ∈ p.exit_index, e < n) :
    ∑ i ∈ Finset.range n, (applyPos p ev).shortD i =
      (∑ i ∈ Finset.range n, ev.shortD i) + netShort p := by
  cases hxe : p.exit_index with
  | none =>
    by_cases ht : p.position_type = "long"
    · simp only [applyPos, netShort, hxe, ht, if_pos, if_true]
      simp
    · simp only [applyPos, netShort, hxe, ht, if_neg, if_false]
      rw [addAt_sum _ _ _ _ he]
      simp [Option.isSome]
  | some ei =>
    have hei : ei < n := hx ei (Option.mem_def.mpr hxe)
    by_cases ht : p.position_type = "long"
    · simp only [applyPos, netShort, hxe, ht, if_pos, if_true]
      simp
    · simp only [applyPos, netShort, hxe, ht, if_neg, if_false]
      rw [addAt_sum _ _ _ _ he, addAt_sum _ _ _ _ hei]
      simp [Option.isSome]

theorem foldl_longD_sum : ∀ (ps : List Position) (ev : Events) (n : ℕ),
    (∀ p ∈ ps, p.entry_index < n ∧ (∀ e ∈ p.exit_index, e < n)) →
    ∑ i ∈ Finset.range n, (ps.foldl (fun ev p => applyPos p ev) ev).longD i =
      (∑ i ∈ Finset.range n, ev.longD i) + (ps.map netLong).sum := by
  intro ps
  induction ps with
  | nil => intro ev n _; simp
  | cons p ps ih =>
    intro ev n hb
    simp only [List.foldl_cons, List.map_cons, List.sum_cons]
    rw [ih (applyPos p ev) n (fun q hq => hb q (List.mem_cons_of_mem p hq)),
      applyPos_longD_sum p ev n (hb p (List.mem_cons_self p ps)).1
        (hb p (List.mem_cons_self p ps)).2]
    ring

theorem foldl_shortD_sum : ∀ (ps : List Position) (ev : Events) (n : ℕ),
    (∀ p ∈ ps, p.entry_index < n ∧ (∀ e ∈ p.exit_index, e < n)) →
    ∑ i ∈ Finset.range n, (ps.foldl (fun ev p => applyPos p ev) ev).shortD i =
      (∑ i ∈ Finset.range n, ev.shortD i) + (ps.map netShort).sum := by
  intro ps
  induction ps with
  | nil => intro ev n _; simp
  | cons p ps ih =>
    intro ev n hb
    simp only [List.foldl_cons, List.map_cons, List.sum_cons]
    rw [ih (applyPos p ev) n (fun q hq => hb q (List.mem_cons_of_mem p hq)),
      applyPos_shortD_sum p ev n (hb p (List.mem_cons_self p ps)).1
        (hb p (List.mem_cons_self p ps)).2]
    ring

theorem netLong_sum (ps : List Position)
    (hc : ∀ p ∈ ps, p.is_closed = p.exit_index.isSome) :
    (ps.map netLong).sum =
      ((ps.filter (fun p => p.position_type == "long" && !p.is_closed)).map
        Position.position_size).sum := by
  induction ps with
  | nil => simp
  | cons p ps ih =>
    have hp := hc p (List.mem_cons_self p ps)
    have ih2 := ih (fun q hq => hc q (List.mem_cons_of_mem p hq))
    simp only [List.map_cons, List.sum_cons, List.filter_cons]
    by_cases ht : p.position_type = "long"
    · cases hxe : p.exit_index with
      | none =>
        have hcl : p.is_closed = false := by rw [hp, hxe]; rfl
        simp [netLong, ht, hxe, hcl, ih2]
      | some ei =>
        have hcl : p.is_closed = true := by rw [hp, hxe]; rfl
        simp [netLong, ht, hxe, hcl, ih2]
    · simp [netLong, ht, ih2]

theorem netShort_sum (ps : List Position)
    (hc : ∀ p ∈ ps, p.is_closed = p.exit_index.isSome ∧
      (p.position_type = "long" ∨ p.position_type = "short")) :
    (ps.map netShort).sum =
      ((ps.filter (fun p => p.position_type == "short" && !p.is_closed)).map
        Position.position_size).sum := by
  induction ps with
  | nil => simp
  | cons p ps ih =>
    have hp := (hc p (List.mem_cons_self p ps)).1
    have hty := (hc p (List.mem_cons_self p ps)).2
    have ih2 := ih (fun q hq => hc q (List.mem_cons_of_mem p hq))
    simp only [List.map_cons, List.sum_cons, List.filter_cons]
    rcases hty with ht | ht
    · have hts : ¬ p.position_type = "short" := by rw [ht]; decide
      simp [netShort, ht, hts, ih2]
    · have htl : ¬ p.position_type = "long" := by rw [ht]; decide
      cases hxe : p.exit_index with
      | none =>
        have hcl : p.is_closed = false := by rw [hp, hxe]; rfl
        simp [netShort, ht, htl, hxe, hcl, ih2]
      | some ei =>
        have hcl : p.is_closed = true := by rw [hp, hxe]; rfl
        simp [netShort, ht, htl, hxe, hcl, ih2]

theorem expoLoop_length (ev : Events) (ps : List Position) (price ts : List ℚ) :
    ∀ fuel i cum le se, (expoLoop ev ps price ts i fuel cum le se).length = fuel := by
  intro fuel
  induction fuel with
  | zero => intro i cum le se; rfl
  | succ fuel ih =>
    intro i cum le se
    simp only [expoLoop, List.length_cons, ih]

theorem expoLoop_get (ev : Events) (ps : List Position) (price ts : List ℚ) :
    ∀ fuel k i cum le se, k < fuel →
    (expoLoop ev ps price ts i fuel cum le se).get? k =
      some (snapAt ev ps price ts i k cum le se) := by
  intro fuel
  induction fuel with
  | zero => intro k i cum le se hk; omega
  | succ fuel ih =>
    intro k i cum le se hk
    cases k with
    | zero =>
      simp only [expoLoop, List.get?_cons_zero]
      have hIco : ∀ f : ℕ → ℚ, ∑ j ∈ Finset.Ico i (i + 0 + 1), f j = f i := by
        intro f
        rw [show i + 0 + 1 = i + 1 by omega,
          Finset.sum_Ico_succ_top (le_refl i), Finset.Ico_self, Finset.sum_empty, zero_add]
      simp only [snapAt, hIco ev.longD, hIco ev.shortD, hIco ev.realized, Nat.add_zero]
    | succ k =>
      simp only [expoLoop, List.get?_cons_succ]
      rw [ih k (i + 1) _ _ _ (by omega)]
      have hsum : ∀ f : ℕ → ℚ,
          f i + ∑ j ∈ Finset.Ico (i + 1) (i + 1 + k + 1), f j =
            ∑ j ∈ Finset.Ico i (i + (k + 1) + 1), f j := by
        intro f
        rw [show i + (k + 1) + 1 = i + 1 + k + 1 by omega]
        exact (Finset.sum_eq_sum_Ico_succ_bot (by omega) f).symm
      have harith : i + 1 + k = i + (k + 1) := by omega
      have e1 : get0 ts (i + 1 + k) = get0 ts (i + (k + 1)) := by rw [harith]
      have e2 : (le + ev.longD i) + ∑ j ∈ Finset.Ico (i + 1) (i + 1 + k + 1), ev.longD j =
          le + ∑ j ∈ Finset.Ico i (i + (k + 1) + 1), ev.longD j := by
        rw [← hsum ev.longD]; ring
      have e3 : (se + ev.shortD i) + ∑ j ∈ Finset.Ico (i + 1) (i + 1 + k + 1), ev.shortD j =
          se + ∑ j ∈ Finset.Ico i (i + (k + 1) + 1), ev.shortD j := by
        rw [← hsum ev.shortD]; ring
      have e4 : (cum + ev.realized i) + ∑ j ∈ Finset.Ico (i + 1) (i + 1 + k + 1), ev.realized j =
          cum + ∑ j ∈ Finset.Ico i (i + (k + 1) + 1), ev.realized j := by
        rw [← hsum ev.realized]; ring
      have e5 : floatPnl ps price (i + 1 + k) = floatPnl ps price (i + (k + 1)) := by
        rw [harith]
      refine congrArg some ?_
      simp only [snapAt, ExposureSnapshot.mk.injEq]
      exact ⟨e1, e2, e3, by rw [e2, e3], e4, e5, by rw [e4, e5]⟩

theorem series_get (ps : List Position) (price ts : List ℚ) (init : ℚ)
    (k : ℕ) (hk : k < price.length) :
    (compute_exposure_series ps price ts init).get? k =
      some (snapAt (buildEvents ps) ps price ts 0 k 0 0 0) := by
  simp only [compute_exposure_series]
  exact expoLoop_get (buildEvents ps) ps price ts price.length k 0 0 0 0 hk

/-- C4: at the last bar, the snapshot's `long_exposure` is the summed size of
the still-open LONG positions and `short_exposure` the summed size of the
still-open SHORT positions, for any position set whose indices are in range,
whose `is_closed` flag agrees with `exit_index`, and whose sides are the two
sides the scanner emits. -/
theorem C4_exposure_conservation (ps : List Position) (price ts : List ℚ) (init : ℚ)
    (hn : 1 ≤ price.length)
    (hb : ∀ p ∈ ps, p.entry_index < price.length ∧
      (∀ e ∈ p.exit_index, e < price.length) ∧
      p.is_closed = p.exit_index.isSome ∧
      (p.position_type = "long" ∨ p.position_type = "short")) :
    ∃ s, (compute_exposure_series ps price ts init).get? (price.length - 1) = some s ∧
      s.long_exposure = ((ps.filter (fun p => p.position_type == "long" && !p.is_closed)).map
        Position.position_size).sum ∧
      s.short_exposure = ((ps.filter (fun p => p.position_type == "short" && !p.is_closed)).map
        Position.position_size).sum := by
  refine ⟨snapAt (buildEvents ps) ps price ts 0 (price.length - 1) 0 0 0,
    series_get ps price ts init (price.length - 1) (by omega), ?_, ?_⟩
  · show (0 : ℚ) + ∑ j ∈ Finset.Ico 0 (0 + (price.length - 1) + 1), (buildEvents ps).longD j = _
    have hrange : Finset.Ico 0 (0 + (price.length - 1) + 1) = Finset.range price.length := by
      rw [Finset.range_eq_Ico]
      congr 1
      omega
    rw [hrange, zero_add]
    show ∑ j ∈ Finset.range price.length,
      (ps.foldl (fun ev p => applyPos p ev) ⟨fun _ => 0, fun _ => 0, fun _ => 0⟩).longD j = _
    rw [foldl_longD_sum ps ⟨fun _ => 0, fun _ => 0, fun _ => 0⟩ price.length
      (fun p hp => ⟨(hb p hp).1, (hb p hp).2.1⟩)]
    simp only [Finset.sum_const_zero, zero_add]
    exact netLong_sum ps (fun p hp => (hb p hp).2.2.1)
  · show (0 : ℚ) + ∑ j ∈ Finset.Ico 0 (0 + (price.length - 1) + 1), (buildEvents ps).shortD j = _
    have hrange : Finset.Ico 0 (0 + (price.length - 1) + 1) = Finset.range price.length := by
      rw [Finset.range_eq_Ico]
      congr 1
      omega
    rw [hrange, zero_add]
    show ∑ j ∈ Finset.range price.length,
      (ps.foldl (fun ev p => applyPos p ev) ⟨fun _ => 0, fun _ => 0, fun _ => 0⟩).shortD j = _
    rw [foldl_shortD_sum ps ⟨fun _ => 0, fun _ => 0, fun _ => 0⟩ price.length
      (fun p hp => ⟨(hb p hp).1, (hb p hp).2.1⟩)]
    simp only [Finset.sum_const_zero, zero_add]
    exact netShort_sum ps (fun p hp => ⟨(hb p hp).2.2.1, (hb p hp).2.2.2⟩)

/-- C4 witness: one still-open LONG of size 5 and one closed SHORT of size 3
on a single bar — the final snapshot carries `long_exposure` = the open long
sum and `short_exposure` = the (empty) open short sum. -/
theorem C4_witness :
    ∃ s, (compute_exposure_series [c4posLong, c4posShort] [10] [1] 7).get?
        (([(10 : ℚ)] : List ℚ).length - 1) = some s ∧
      s.long_exposure = (([c4posLong, c4posShort].filter
        (fun p => p.position_type == "long" && !p.is_closed)).map Position.position_size).sum ∧
      s.short_exposure = (([c4posLong, c4posShort].filter
        (fun p => p.position_type == "short" && !p.is_closed)).map Position.position_size).sum :=
  C4_exposure_conservation [c4posLong, c4posShort] [10] [1] 7 (by decide) (by decide)

theorem series_length (ps : List Position) (price ts : List ℚ) (init : ℚ) :
    (compute_exposure_series ps price ts init).length = price.length := by
  simp only [compute_exposure_series]
  exact expoLoop_length (buildEvents ps) ps price ts price.length 0 0 0 0

theorem entryIdx_pos (n i : ℕ) (hn : 2 ≤ n) (hi : i < n) : 1 ≤ entryIdx n i := by
  unfold entryIdx
  split <;> omega

theorem scanEmit_entry_ge_one (ts o : List ℚ) (lng srt : List Bool)
    (ltp lsl stp ssl lsz ssz expt : List ℚ) (efr sr : ℚ) (hn : 2 ≤ o.length) :
    ∀ p ∈ scanEmit ts o lng srt ltp lsl stp ssl lsz ssz expt efr sr,
      1 ≤ p.entry_index := by
  intro p hp
  obtain ⟨i, hi, hcase⟩ := scanEmit_mem ts o lng srt ltp lsl stp ssl lsz ssz expt efr sr p hp
  have hidx := entryIdx_pos o.length i hn hi
  rcases hcase with ⟨_, rfl⟩ | ⟨_, rfl⟩ <;> exact hidx

theorem exitLoop_exit_some (pos : Position) (ts high low close : List ℚ)
    (fr sr : ℚ) : ∀ fuel j e,
    (exitLoop pos ts high low close fr sr j fuel).exit_index = some e →
    pos.exit_index = some e ∨ j ≤ e := by
  intro fuel
  induction fuel with
  | zero => intro j e h; exact Or.inl h
  | succ fuel ih =>
    intro j e h
    simp only [exitLoop] at h
    by_cases htrig : (hitSl pos high low j || hitTp pos high low j || expired pos ts j) = true
    · rw [if_pos htrig] at h
      simp only [closePos] at h
      exact Or.inr (Option.some.inj h ▸ le_refl j)
    · rw [if_neg htrig] at h
      rcases ih (j + 1) e h with h1 | h2
      · exact Or.inl h1
      · exact Or.inr (by omega)

theorem applyPos_at (p : Position) (ev : Events) (m : ℕ)
    (hm1 : m ≠ p.entry_index) (hm2 : ∀ e ∈ p.exit_index, m ≠ e) :
    (applyPos p ev).realized m = ev.realized m ∧
    (applyPos p ev).longD m = ev.longD m ∧
    (applyPos p ev).shortD m = ev.shortD m := by
  cases hxe : p.exit_index with
  | none =>
    by_cases ht : p.position_type = "long"
    · have hh : applyPos p ev =
          { ev with longD := addAt ev.longD p.entry_index p.position_size } := by
        simp [applyPos, hxe, ht]
      rw [hh]
      exact ⟨rfl, addAt_ne _ _ _ m hm1, rfl⟩
    · have hh : applyPos p ev =
          { ev with shortD := addAt ev.shortD p.entry_index p.position_size } := by
        simp [applyPos, hxe, ht]
      rw [hh]
      exact ⟨rfl, rfl, addAt_ne _ _ _ m hm1⟩
  | some ei =>
    have hm2e : m ≠ ei := hm2 ei (Option.mem_def.mpr hxe)
    by_cases ht : p.position_type = "long"
    · have hh : applyPos p ev =
          { realized := addAt ev.realized ei (p.pnl.getD 0),
            longD := addAt (addAt ev.longD ei (-p.position_size)) p.entry_index p.position_size,
            shortD := ev.shortD } := by
        simp [applyPos, hxe, ht]
      rw [hh]
      exact ⟨addAt_ne _ _ _ m hm2e,
        (addAt_ne _ _ _ m hm1).trans (addAt_ne _ _ _ m hm2e), rfl⟩
    · have hh : applyPos p ev =
          { realized := addAt ev.realized ei (p.pnl.getD 0),
            longD := ev.longD,
            shortD := addAt (addAt ev.shortD ei (-p.position_size)) p.entry_index p.position_size } := by
        simp [applyPos, hxe, ht]
      rw [hh]
      exact ⟨addAt_ne _ _ _ m hm2e, rfl,
        (addAt_ne _ _ _ m hm1).trans (addAt_ne _ _ _ m hm2e)⟩

theorem foldl_events_at_zero : ∀ (ps : List Position) (ev : Events),
    (∀ p ∈ ps, 1 ≤ p.entry_index ∧ (∀ e ∈ p.exit_index, 1 ≤ e)) →
    ((ps.foldl (fun ev p => applyPos p ev) ev).realized 0 = ev.realized 0 ∧
     (ps.foldl (fun ev p => applyPos p ev) ev).longD 0 = ev.longD 0 ∧
     (ps.foldl (fun ev p => applyPos p ev) ev).shortD 0 = ev.shortD 0) := by
  intro ps
  induction ps with
  | nil => intro ev _; exact ⟨rfl, rfl, rfl⟩
  | cons p ps ih =>
    intro ev hb
    have hp := hb p (List.mem_cons_self p ps)
    have happ := applyPos_at p ev 0 (by omega)
      (fun e he => by have := hp.2 e he; omega)
    have ihr := ih (applyPos p ev) (fun q hq => hb q (List.mem_cons_of_mem p hq))
    simp only [List.foldl_cons]
    exact ⟨ihr.1.trans happ.1, ihr.2.1.trans happ.2.1, ihr.2.2.trans happ.2.2⟩

/-- C9: on a valid run with N ≥ 2 bars, every emitted position fills at
bar ≥ 1 (next-bar fill with last-bar clamp), so the bar-0 snapshot is all
zeroes (`total_equity = 0` included), the first bar-to-bar return R_1 is 0
(the `E_0 = 0` guard fires) and `cumulative_return` is 0. -/
theorem C9_first_bar (ts o high low close : List ℚ) (lng srt : List Bool)
    (ltp lsl stp ssl lsz ssz expt : List ℚ) (efr xfr sr init : ℚ)
    (ps : List Position) (snaps : List ExposureSnapshot)
    (hn : 2 ≤ close.length) (ho : o.length = close.length)
    (hrun : run_stages ts o high low close lng srt ltp lsl stp ssl lsz ssz expt
      efr xfr sr init = Except.ok (ps, snaps)) :
    (∀ p ∈ ps, 1 ≤ p.entry_index) ∧
    snaps.get? 0 = some (zeroSnap (get0 ts 0)) ∧
    (∃ tm, compute_time_metrics snaps = some tm ∧
      tm.returns.get? 0 = some 0 ∧ tm.cumulative_return = 0) := by
  unfold run_stages at hrun
  cases hscan : scan_entries ts o lng srt ltp lsl stp ssl lsz ssz expt efr sr with
  | error m =>
    rw [hscan] at hrun
    exact absurd hrun (by simp [Except.map])
  | ok ps0 =>
    rw [hscan] at hrun
    simp only [Except.map] at hrun
    have hpair := Except.ok.inj hrun
    have hps : simulate_position_exits ps0 ts high low close xfr sr = ps :=
      congrArg Prod.fst hpair
    have hsnaps : compute_exposure_series
        (simulate_position_exits ps0 ts high low close xfr sr) close ts init = snaps :=
      congrArg Prod.snd hpair
    subst hps
    subst hsnaps
    have hse := scan_entries_ok ts o lng srt ltp lsl stp ssl lsz ssz expt efr sr ps0 hscan
    subst hse
    have h2o : 2 ≤ o.length := by omega
    have hentry : ∀ p ∈ simulate_position_exits
        (scanEmit ts o lng srt ltp lsl stp ssl lsz ssz expt efr sr) ts high low close xfr sr,
        1 ≤ p.entry_index := by
      intro p hp
      simp only [simulate_position_exits, List.mem_map] at hp
      obtain ⟨q, hq, rfl⟩ := hp
      have hq1 := scanEmit_entry_ge_one ts o lng srt ltp lsl stp ssl lsz ssz expt efr sr h2o q hq
      have hfr := (simulateOne_frame ts high low close xfr sr q).2.2.1
      omega
    have hexitge : ∀ p ∈ simulate_position_exits
        (scanEmit ts o lng srt ltp lsl stp ssl lsz ssz expt efr sr) ts high low close xfr sr,
        ∀ e ∈ p.exit_index, 1 ≤ e := by
      intro p hp e he
      simp only [simulate_position_exits, List.mem_map] at hp
      obtain ⟨q, hq, rfl⟩ := hp
      obtain ⟨i, hi, hcase⟩ := scanEmit_mem ts o lng srt ltp lsl stp ssl lsz ssz expt efr sr q hq
      have hq1 := scanEmit_entry_ge_one ts o lng srt ltp lsl stp ssl lsz ssz expt efr sr h2o q hq
      have hqopen : q.is_closed = false := by
        rcases hcase with ⟨_, rfl⟩ | ⟨_, rfl⟩ <;> rfl
      have hqexit : q.exit_index = none := by
        rcases hcase with ⟨_, rfl⟩ | ⟨_, rfl⟩ <;> rfl
      have hsim : simulateOne ts high low close xfr sr q =
          exitLoop q ts high low close xfr sr q.entry_index (high.length - q.entry_index) := by
        unfold simulateOne
        rw [hqopen]
        simp
      rw [hsim] at he
      rcases exitLoop_exit_some q ts high low close xfr sr _ q.entry_index e
          (Option.mem_def.mp he) with hcontra | hge
      · rw [hqexit] at hcontra
        exact Option.noConfusion hcontra
      · omega
    set sim := simulate_position_exits
      (scanEmit ts o lng srt ltp lsl stp ssl lsz ssz expt efr sr) ts high low close xfr sr with hsimdef
    have hfloat : floatPnl sim close 0 = 0 := by
      unfold floatPnl
      have hfil : sim.filter (openAt 0) = [] := by
        rw [List.filter_eq_nil_iff]
        intro p hp
        have h1 := hentry p hp
        simp only [openAt, Bool.and_eq_true, decide_eq_true_eq]
        intro hcon
        omega
      rw [hfil]
      rfl
    have hev : (buildEvents sim).realized 0 = 0 ∧
        (buildEvents sim).longD 0 = 0 ∧ (buildEvents sim).shortD 0 = 0 := by
      unfold buildEvents
      exact foldl_events_at_zero sim ⟨fun _ => 0, fun _ => 0, fun _ => 0⟩
        (fun p hp => ⟨hentry p hp, fun e he => hexitge p hp e he⟩)
    have hsnap0 : snapAt (buildEvents sim) sim close ts 0 0 0 0 0 =
        zeroSnap (get0 ts 0) := by
      have hIco : ∀ f : ℕ → ℚ, ∑ j ∈ Finset.Ico 0 (0 + 0 + 1), f j = f 0 := by
        intro f
        rw [Finset.sum_Ico_succ_top (le_refl 0), Finset.Ico_self, Finset.sum_empty, zero_add]
      simp only [snapAt, zeroSnap, hIco, Nat.add_zero, ExposureSnapshot.mk.injEq]
      refine ⟨trivial, by rw [hev.2.1]; ring, by rw [hev.2.2]; ring,
        by rw [hev.2.1, hev.2.2]; ring, by rw [hev.1]; ring, hfloat,
        by rw [hev.1, hfloat]; ring⟩
    have hget0 : (compute_exposure_series sim close ts init).get? 0 =
        some (zeroSnap (get0 ts 0)) := by
      rw [series_get sim close ts init 0 (by omega), hsnap0]
    have hlen := series_length sim close ts init
    obtain ⟨s0, rest, hsr⟩ : ∃ s0 rest,
        compute_exposure_series sim close ts init = s0 :: rest := by
      cases hc : compute_exposure_series sim close ts init with
      | nil => rw [hc] at hlen; simp at hlen; omega
      | cons a b => exact ⟨a, b, rfl⟩
    have hs0 : s0 = zeroSnap (get0 ts 0) := by
      have hx := hget0
      rw [hsr] at hx
      simpa using hx
    refine ⟨hentry, hget0, ?_⟩
    rw [hsr]
    have hclen : (s0 :: rest).length = close.length := by rw [← hsr]; exact hlen
    have h01 : 0 < (s0 :: rest).length - 1 := by omega
    simp only [compute_time_metrics]
    refine ⟨_, rfl, ?_, ?_⟩
    · show ((List.range ((s0 :: rest).length - 1)).map (fun k =>
          if ((s0 :: rest).getD k default).total_equity ≠ 0 then
            (((s0 :: rest).getD (k + 1) default).total_equity -
              ((s0 :: rest).getD k default).total_equity) /
              ((s0 :: rest).getD k default).total_equity
          else 0)).get? 0 = some 0
      rw [List.get?_map, List.get?_range h01]
      simp only [Option.map_some', List.getD_cons_zero, hs0]
      simp [zeroSnap]
    · show (if s0.total_equity ≠ 0 then
          ((s0 :: rest).getD ((s0 :: rest).length - 1) default).total_equity / s0.total_equity - 1
        else 0) = 0
      rw [hs0]
      simp [zeroSnap]

/-- C9 witness: the 2-bar fixture run (`c9run`) — entry at bar 1, zero bar-0
snapshot, first return 0 and zero cumulative return. -/
theorem C9_witness :
    (∀ p ∈ c9run.1, 1 ≤ p.entry_index) ∧
    c9run.2.get? 0 = some (zeroSnap (get0 [1, 2] 0)) ∧
    (∃ tm, compute_time_metrics c9run.2 = some tm ∧
      tm.returns.get? 0 = some 0 ∧ tm.cumulative_return = 0) :=
  C9_first_bar [1, 2] [10, 10] [10, 10] [10, 10] [10, 10] [true, false] [false, false]
    [100, 100] [1, 1] [0, 0] [0, 0] [1, 1] [0, 0] [99, 99] 0 0 0 5 c9run.1 c9run.2
    (by decide) (by decide) rfl
